import Mathlib

/-!
Verification of the binding/test generator `make.py` (gsl_rust).

The Python source is shallowly embedded below.  Text is modelled as
`List Char` (named `Str`); Python's `str` operations used by the source
(`split`, `strip`, `in`, `startswith`, `replace`, `lstrip`) are defined
here over `Str` with Python's semantics.  Fallible operations (Python
exceptions: `ValueError` from unpacking, `KeyError`, `Exception`,
and the `AssertionError`-to-`None` path of `parse_TEST_SF_line`)
return `Option`.
-/

/-- Text is modelled as a list of characters. -/
abbrev Str : Type := List Char

/-- Conversion from a Lean string literal to the `Str` model. -/
def lc (s : String) : Str := s.data

/-- First index of an occurrence of `pat` in `s` (leftmost match),
like Python's `str.find`, as an `Option`. -/
def findSub (s pat : Str) : Option Nat :=
  if pat.isPrefixOf s then some 0
  else
    match s with
    | [] => none
    | _ :: t => (findSub t pat).map (· + 1)

/-- Python's `pat in s` substring test. -/
def containsSub (s pat : Str) : Bool := (findSub s pat).isSome

/-- Python's `[a, b] = s.split(pat)` two-element unpacking: succeeds with
the parts before and after the unique occurrence of `pat` iff `pat`
occurs exactly once in `s`; otherwise the unpacking raises (modelled as
`none`). -/
def splitTwo (s pat : Str) : Option (Str × Str) :=
  match findSub s pat with
  | none => none
  | some i =>
    let rest := s.drop (i + pat.length)
    match findSub rest pat with
    | some _ => none
    | none => some (s.take i, rest)

/-- Python's `s.split(c)` for a single-character separator (keeps empty
pieces). -/
def splitOnChar (c : Char) (s : Str) : List Str :=
  match s with
  | [] => [[]]
  | x :: t =>
    match splitOnChar c t with
    | [] => [[]]
    | h :: r => if x = c then [] :: h :: r else (x :: h) :: r

/-- Whitespace recognized by Python's `str.split()` / `str.strip()`
(ASCII range, which covers all inputs of this program). -/
def isPySpace (c : Char) : Bool :=
  c = ' ' || c = '\t' || c = '\n' || c = '\x0d' || c = '\x0b' || c = '\x0c'

/-- Python's no-argument `s.split()`: split on whitespace runs, dropping
empty pieces. -/
def splitWs : Str → List Str
  | [] => []
  | [c] => if isPySpace c then [] else [[c]]
  | c :: c' :: t =>
    if isPySpace c then splitWs (c' :: t)
    else
      match splitWs (c' :: t) with
      | [] => [[c]]
      | h :: r => if isPySpace c' then [c] :: h :: r else (c :: h) :: r

/-- Python's `s.strip()`. -/
def stripWs (s : Str) : Str :=
  ((s.dropWhile isPySpace).reverse.dropWhile isPySpace).reverse

/-- Python's `s.lstrip(c)` for one character: drop all leading copies. -/
def lstripChar (c : Char) (s : Str) : Str := s.dropWhile (· = c)

/-- Python's `s.replace(pat, rep)` (all non-overlapping occurrences,
left to right), with explicit fuel; `pat` is nonempty in every use, so
fuel `s.length` suffices. -/
def replaceAllFuel : Nat → Str → Str → Str → Str
  | 0, s, _, _ => s
  | fuel + 1, s, pat, rep =>
    match findSub s pat with
    | none => s
    | some i => s.take i ++ rep ++ replaceAllFuel fuel (s.drop (i + pat.length)) pat rep

/-- Python's `s.replace(pat, rep)`. -/
def replaceAll (s pat rep : Str) : Str := replaceAllFuel s.length s pat rep

/-- Python's `'\n'.join(xs)` generalized to any separator. -/
def joinSep (sep : Str) : List Str → Str
  | [] => []
  | [x] => x
  | x :: y :: t => x ++ sep ++ joinSep sep (y :: t)

example : splitOnChar ',' (lc ("a,b,")) = [lc ("a"), lc ("b"), []] := by decide
example : splitWs (lc ("  int  n ")) = [lc ("int"), lc ("n")] := by decide
example : stripWs (lc (" ab ")) = lc ("ab") := by decide
example : findSub (lc ("abcbc")) (lc ("bc")) = some 1 := by decide
example : splitTwo (lc ("a.b")) (lc (".")) = some (lc ("a"), lc ("b")) := by decide
example : splitTwo (lc ("a.b.c")) (lc (".")) = none := by decide
example : replaceAll (lc ("xaxa")) (lc ("xa")) (lc ("y")) = lc ("yy") := by decide

/-! ## Data model (namedtuples and database entries of `make.py`) -/

/-- A Python value that is either a plain string or a 2-tuple of strings:
`convert_to_rust_type` receives and may return both shapes, and the
filter later applies Python's polymorphic `in` to it. -/
inductive RType : Type where
  | str (t : Str)
  | tup (a b : Str)
deriving DecidableEq, Repr

/-- Python's `needle in x` where `x` is a `str` (substring test) or a
tuple (element membership), as used on argument types. -/
def pyIn (needle : Str) : RType → Bool
  | .str t => containsSub t needle
  | .tup a b => (a = needle) || (b = needle)

/-- Python equality `x == s` of an `RType` against a string literal
(a tuple never equals a string). -/
def rtypeIs (x : RType) (s : Str) : Bool :=
  match x with
  | .str t => t = s
  | .tup _ _ => false

/-- `FunctionHeadArg = namedtuple('FunctionHeadArg', ['name', 'type'])`. -/
structure FunctionHeadArg : Type where
  name : Str
  type : RType
deriving DecidableEq, Repr

/-- `SpecialFunctionHead` namedtuple: one decomposed header declaration. -/
structure SpecialFunctionHead : Type where
  c_func : Str
  rust_func : Option Str
  args : List FunctionHeadArg
  has_single_gsl_sf_result : Bool
  takes_arrays : Bool
  no_comments_in_args : Bool
deriving DecidableEq, Repr

/-- `SpecialFunctionTest` namedtuple: one extracted test assertion. -/
structure SpecialFuncTest : Type where
  func_c : Str
  func_rust : Option Str
  args : List Str
  expected : Str
  tolerance : Str
deriving DecidableEq, Repr

/-- `FunctionDoc = namedtuple('FunctionDoc', ['name', 'doc'])`. -/
structure FunctionDoc : Type where
  name : Str
  doc : Str
deriving DecidableEq, Repr

/-- One record of the function database (an entry dict of
`SpecialFunctionDatabase.functions`).  `rust_func` is `none` when the
Python value is `None`; `args` is `none` when the `'args'` key is
absent from the loaded record. -/
structure FuncEntry : Type where
  c_func : Str
  c_func_canonical : Str
  rust_func : Option Str
  exclude : Bool
  args : Option (List FunctionHeadArg)
deriving DecidableEq, Repr

/-- A Python dict keyed by strings, insertion-ordered. -/
abbrev FuncDict : Type := List (Str × FuncEntry)

/-- Python dict lookup `d.get(k)`. -/
def dictGet {α : Type} (fns : List (Str × α)) (k : Str) : Option α :=
  match fns with
  | [] => none
  | (k', v) :: t => if k' = k then some v else dictGet t k

/-- Python dict assignment `d[k] = v`: replace in place when the key is
present, append otherwise. -/
def dictInsert {α : Type} (fns : List (Str × α)) (k : Str) (v : α) : List (Str × α) :=
  match fns with
  | [] => [(k, v)]
  | (k', v') :: t => if k' = k then (k', v) :: t else (k', v') :: dictInsert t k v

/-- `SpecialFunctionDatabase`: the stored constructor argument and the
identifier-keyed function mapping. -/
structure SpecialFunctionDatabase : Type where
  path : Str
  functions : FuncDict
deriving DecidableEq, Repr

/-! ## Type mapper and signature decomposer -/

/-- `canonical_c_func_name`. -/
def canonical_c_func_name (name : Str) : Str :=
  let name := if (lc ("_e")).isSuffixOf name then name.dropLast.dropLast else name
  if (lc ("c.")).isPrefixOf name then name.drop 2 else name

/-- `convert_sf_name_to_rust_name` (defined in the source but never
called by any part of the pipeline). -/
def convert_sf_name_to_rust_name (c_func : Str) : Str :=
  let c_func := if (lc ("_e")).isSuffixOf c_func then c_func.dropLast.dropLast else c_func
  if (lc ("gsl_sf_")).isPrefixOf c_func then c_func.drop 7 else c_func

/-- `convert_arg_name_to_rust`: `arg_name.lower()`. -/
def convert_arg_name_to_rust (arg_name : Str) : Str := arg_name.map Char.toLower

/-- `convert_to_rust_type`: the fixed rule table; unrecognized inputs
pass through unchanged (the Python `else: return c_type`).  The
`c_type is None` row of the source is unreachable from
`decompose_head` and has no representable input here. -/
def convert_to_rust_type (c_type : RType) : RType :=
  match c_type with
  | .str t =>
    if t = lc ("double") then .str (lc ("f64"))
    else if t = lc ("int") then .str (lc ("i32"))
    else .str t
  | .tup a b =>
    if a = lc ("const") && b = lc ("int") then .str (lc ("i32"))
    else if a = lc ("unsigned") && b = lc ("int") then .str (lc ("u32"))
    else if a = lc ("const") && b = lc ("double") then .str (lc ("f64"))
    else if a = lc ("double") && b = lc ("*") then .str (lc ("double*"))
    else if a = lc ("int") && b = lc ("*") then .str (lc ("double*"))
    else if a = lc ("const") && b = lc ("gsl_mode_t") then .str (lc ("gsl_mode_t"))
    else .tup a b

/-- One argument of `decompose_head`'s token-count classification;
token counts outside {2,3,4} raise (`none`). -/
def decomposeArg (arg : List Str) : Option FunctionHeadArg :=
  match arg with
  | [t, n] => some ⟨convert_arg_name_to_rust n, convert_to_rust_type (.str t)⟩
  | [t0, t1, n] =>
    if t1 = lc ("*") then some ⟨convert_arg_name_to_rust n, .str (t0 ++ lc ("*"))⟩
    else some ⟨convert_arg_name_to_rust n, convert_to_rust_type (.tup t0 t1)⟩
  | [_, t1, t2, n] => some ⟨convert_arg_name_to_rust n, convert_to_rust_type (.tup t1 t2)⟩
  | _ => none

/-- `decompose_head(head, db)`.  The rust name is resolved only against
the current database (`function and function.get('rust_func')`); the
`raise Exception(... invalid arg ...)` case is `none`. -/
def decompose_head (head : Str × Str) (db : SpecialFunctionDatabase) :
    Option SpecialFunctionHead :=
  let gsl_name := head.1
  let raw_args := head.2
  let rust_name : Option Str := (dictGet db.functions gsl_name).bind (fun f => f.rust_func)
  let comments_in_args : Bool := ! containsSub raw_args (lc ("/*"))
  let split_args : List (List Str) := (splitOnChar ',' raw_args).map (fun a => splitWs (stripWs a))
  (split_args.mapM decomposeArg).map (fun final_args =>
    let has_single_gsl_sf_result :=
      (final_args.countP (fun a => rtypeIs a.type (lc ("gsl_sf_result*")))) = 1
    let takes_arrays := final_args.any (fun a =>
      rtypeIs a.type (lc ("double*")) || rtypeIs a.type (lc ("int*")) ||
      rtypeIs a.type (lc ("*sgn")))
    { c_func := gsl_name
      rust_func := rust_name
      args := final_args
      has_single_gsl_sf_result := has_single_gsl_sf_result
      takes_arrays := takes_arrays
      no_comments_in_args := comments_in_args })

/-! ## Header declaration extraction (the regex scan of `function_heads`) -/

/-- A `\w` character of the scanning pattern. -/
def isWordChar (c : Char) : Bool := c.isAlphanum || c = '_'

/-- Try to match `int\s+(\w+)\s*\(([^)]+)\)\s*;` at the start of `s`;
on success return the two capture groups and the remaining text after
the match.  The character classes of the pattern are pairwise disjoint
at every juncture, so greedy maximal-munch scanning is equivalent to
the regex's backtracking semantics. -/
def matchDecl (s : Str) : Option ((Str × Str) × Str) :=
  if (lc ("int")).isPrefixOf s then
    let s1 := s.drop 3
    let ws1 := s1.takeWhile isPySpace
    if ws1.length = 0 then none
    else
      let s2 := s1.drop ws1.length
      let ident := s2.takeWhile isWordChar
      if ident.length = 0 then none
      else
        let s3 := (s2.drop ident.length).dropWhile isPySpace
        match s3 with
        | '(' :: s4 =>
          let inner := s4.takeWhile (fun c => c ≠ ')')
          if inner.length = 0 then none
          else
            match s4.drop inner.length with
            | ')' :: s5 =>
              match s5.dropWhile isPySpace with
              | ';' :: s6 => some ((ident, inner), s6)
              | _ => none
            | _ => none
        | _ => none
  else none

/-- `re.findall` of the declaration pattern: scan left to right,
resuming after each match end; `fuel` bounds the scan (every step
consumes at least one character, so `s.length` suffices). -/
def findDecls : Nat → Str → List (Str × Str)
  | 0, _ => []
  | fuel + 1, s =>
    match matchDecl s with
    | some (m, rest) => m :: findDecls fuel rest
    | none =>
      match s with
      | [] => []
      | _ :: t => findDecls fuel t

/-- The keep-condition of `function_heads`: no `gsl_mode_t` inside an
argument type, no `*` inside an argument name, exactly one
`gsl_sf_result*` argument, and no array parameters (the source tests
`takes_arrays` twice). -/
def keepHead (head : SpecialFunctionHead) : Bool :=
  (! head.args.any (fun a => pyIn (lc ("gsl_mode_t")) a.type || containsSub a.name (lc ("*")))) &&
  head.has_single_gsl_sf_result &&
  (! head.takes_arrays) && (! head.takes_arrays)

/-- `function_heads(path, db)` on the header text `contents`: extract
all declarations, decompose each (a malformed argument list raises,
killing the run: `none`), then filter out problematic signatures. -/
def function_heads (contents : Str) (db : SpecialFunctionDatabase) :
    Option (List SpecialFunctionHead) :=
  ((findDecls contents.length contents).mapM (fun m => decompose_head m db)).map
    (fun heads => heads.filter keepHead)

/-! ## The function database operations -/

/-- The header file path `'gsl/specfunc/gsl_sf_{}.h'.format(module)`. -/
def headerPath (module : Str) : Str := lc ("gsl/specfunc/gsl_sf_") ++ module ++ lc (".h")

/-- A file system: contents of each path.  `make.py` reads headers
through `open(path).read()`. -/
abbrev FileSys : Type := Str → Str

/-- `gather_function_heads(modules, db)`. -/
def gather_function_heads (fs : FileSys) (modules : List Str)
    (db : SpecialFunctionDatabase) : Option (List SpecialFunctionHead) :=
  (modules.mapM (fun m => function_heads (fs (headerPath m)) db)).map List.flatten

/-- The fresh record inserted by `update_with_modules` for a newly
discovered identifier. -/
def newFunc (head : SpecialFunctionHead) : FuncEntry :=
  { c_func := head.c_func
    c_func_canonical := canonical_c_func_name head.c_func
    rust_func := head.rust_func
    exclude := false
    args := some head.args }

/-- The insertion loop of `update_with_modules`: insert a new entry for
every head whose identifier is not yet a key; existing keys are left
untouched. -/
def insertNewFuncs (fns : FuncDict) (heads : List SpecialFunctionHead) : FuncDict :=
  match heads with
  | [] => fns
  | h :: t =>
    let fns' := if (dictGet fns h.c_func).isSome then fns
                else dictInsert fns h.c_func (newFunc h)
    insertNewFuncs fns' t

/-- The inner loop of `add_typing_information`:
`self.functions[head.c_func]['args'] = head.args` for every head; a
missing key raises `KeyError` (`none`). -/
def setArgsMany (fns : FuncDict) (heads : List SpecialFunctionHead) : Option FuncDict :=
  match heads with
  | [] => some fns
  | h :: t =>
    match dictGet fns h.c_func with
    | none => none
    | some e => setArgsMany (dictInsert fns h.c_func { e with args := some h.args }) t

/-- `SpecialFunctionDatabase.add_typing_information(modules)`: for each
module, re-extract the heads against the current database state and
refresh every entry's argument snapshot. -/
def add_typing_information (fs : FileSys) (db : SpecialFunctionDatabase)
    (modules : List Str) : Option SpecialFunctionDatabase :=
  match modules with
  | [] => some db
  | m :: ms =>
    match function_heads (fs (headerPath m)) db with
    | none => none
    | some heads =>
      match setArgsMany db.functions heads with
      | none => none
      | some fns => add_typing_information fs { db with functions := fns } ms

/-- `SpecialFunctionDatabase.update_with_modules(modules)`: gather all
heads with the current database, insert entries for new identifiers,
then run `add_typing_information` over the same modules. -/
def update_with_modules (fs : FileSys) (db : SpecialFunctionDatabase)
    (modules : List Str) : Option SpecialFunctionDatabase :=
  match gather_function_heads fs modules db with
  | none => none
  | some heads =>
    add_typing_information fs { db with functions := insertNewFuncs db.functions heads } modules

/-- `SpecialFunctionDatabase.__init__(path)`: the argument is stored in
`self.path`, but the records are loaded from the fixed name
`'gsl_functions.json'`; `loadJson` abstracts `json.load(open(...))`,
mapping a path to its parsed record list.  The loop keys each record
dict by its `c_func` field. -/
def SpecialFunctionDatabase.init (path : Str) (loadJson : Str → List FuncEntry) :
    SpecialFunctionDatabase :=
  { path := path
    functions := (loadJson (lc ("gsl_functions.json"))).foldl
      (fun fns f => dictInsert fns f.c_func f) [] }

/-! ## Test literal extraction (`parse_TEST_SF_line` and helpers) -/

/-- `convert_c_to_python`: rewrite `&` to `__POINTER_REF__`, drop every
`;`, strip. -/
def convert_c_to_python (c_line : Str) : Str :=
  stripWs (replaceAll (replaceAll c_line (lc ("&")) (lc ("__POINTER_REF__"))) (lc (";")) [])

/-- `floating_point_value_to_rust`: the four sequential prefix fix-ups
of the source, in order. -/
def floating_point_value_to_rust (stringified_float : Str) : Str :=
  let s := stripWs stringified_float
  let s := if s.head? = some '.' then '0' :: s else s
  let s := if (lc ("-.")).isPrefixOf s then lc ("-0.") ++ s.drop 2 else s
  let s := if (lc ("+.")).isPrefixOf s then lc ("+0.") ++ s.drop 2 else s
  if s.head? = some '+' then s.drop 1 else s

/-- `is_constant_integer` judged on the source segment: a decimal
integer literal with an optional leading minus (the `ast.Constant` /
`USub`-of-`Constant` test of the source, for the decimal literals this
program processes). -/
def isConstIntSrc (s : Str) : Bool :=
  let body := if s.head? = some '-' then s.drop 1 else s
  body.length ≠ 0 && body.all (fun c => c.isDigit)

/-- CPython's `str(float(s))` for a decimal integer literal `s` of
magnitude below 10^16: the sign, the digits without leading zeros, and
a trailing `.0`. -/
def intFloatRepr (s : Str) : Str :=
  let neg := s.head? = some '-'
  let body := if neg then s.drop 1 else s
  let mag := body.dropWhile (fun c => c = '0')
  let mag := if mag.length = 0 then lc ("0") else mag
  (if neg then lc ("-") else []) ++ mag ++ lc (".0")

/-- The rejection class of `re.match(r'[abcdf-zABCD-Z]', s)`: the
regex is anchored at the start of the string, so only the first
character is examined; `e` and `E` are excluded from the class. -/
def rejAlpha (c : Char) : Bool :=
  ('a' ≤ c && c ≤ 'd') || ('f' ≤ c && c ≤ 'z') || ('A' ≤ c && c ≤ 'D') || ('F' ≤ c && c ≤ 'Z')

/-- Whether `re.match(r'[abcdf-zABCD-Z]', s)` finds a match: true iff
the first character is in the class. -/
def rejAlphaStart (s : Str) : Bool :=
  match s with
  | [] => false
  | c :: _ => rejAlpha c

/-- Split at commas that sit at parenthesis depth zero (how the Python
parser divides the elements of an argument list or tuple display). -/
def splitTopComma : Str → Nat → List Str
  | [], _ => [[]]
  | c :: t, d =>
    let d' := if c = '(' then d + 1 else if c = ')' then d - 1 else d
    match splitTopComma t d' with
    | [] => [[]]
    | h :: r => if c = ',' && d = 0 then [] :: h :: r else (c :: h) :: r

/-- Python identifier test (`ast.Name`): used for `call.args[1].id`. -/
def asName (s : Str) : Option Str :=
  match s with
  | [] => none
  | c :: _ =>
    if (c.isAlpha || c = '_') && s.all isWordChar then some s else none

/-- The `.elts[:-1]`-relevant view of `call.args[2]`: a parenthesized
tuple display.  A parenthesized expression without a top-level comma is
not a `Tuple` in Python (`.elts` raises, yielding no record); an empty
pair of parentheses is the empty tuple; one trailing comma is allowed. -/
def tupleElts (s : Str) : Option (List Str) :=
  match s with
  | '(' :: t =>
    match t.reverse with
    | ')' :: innerRev =>
      let inner := innerRev.reverse
      if (stripWs inner).length = 0 then some []
      else
        let parts := (splitTopComma inner 0).map stripWs
        if parts.length ≤ 1 then none
        else if parts.getLast? = some [] then some parts.dropLast else some parts
    | _ => none
  | _ => none

/-- The top-level call shape `f(a0, a1, ...)` of the converted line
(`ast.parse` then `mod.body[0].value`): an identifier, an opening
parenthesis, the top-level-comma-separated argument segments, a final
closing parenthesis.  Each argument is kept as its exact source
segment with surrounding whitespace removed (`ast.get_source_segment`
spans the node's own text).  Any other shape ends in the
`except`-to-`None` path of the source. -/
def parsePyCall (s : Str) : Option (Str × List Str) :=
  match findSub s (lc ("(")) with
  | none => none
  | some i =>
    match asName (s.take i) with
    | none => none
    | some fname =>
      match s.reverse with
      | ')' :: _ =>
        let inner := (s.drop (i + 1)).dropLast
        some (fname, (splitTopComma inner 0).map stripWs)
      | _ => none

/-- The per-argument body of the extraction loop of
`parse_TEST_SF_line`: integer-to-float coercion only for declared type
`f64`, leading `+` stripped, the anchored alphabetic rejection test,
then the one hard-coded textual patch. -/
def processTestArg (p : FunctionHeadArg × Str) : Option Str :=
  let typ := p.1.type
  let serialized := p.2
  let arg_code :=
    if isConstIntSrc serialized && rtypeIs typ (lc ("f64")) then
      lstripChar '+' (intFloatRepr serialized)
    else lstripChar '+' serialized
  if rejAlphaStart arg_code then none
  else some (replaceAll arg_code (lc ("-100-1.0/65536.0")) (lc ("-100.0-1.0/65536.0")))

/-- `parse_TEST_SF_line(line, db)`.  All exception paths of the source
(`AttributeError`, `SyntaxError`, `IndexError`, `AssertionError`)
produce `none`, as does a database miss or an entry without argument
metadata. -/
def parse_TEST_SF_line (line : Str) (db : SpecialFunctionDatabase) :
    Option SpecialFuncTest :=
  let py_line := convert_c_to_python line
  match parsePyCall py_line with
  | none => none
  | some (fname, callArgs) =>
    if fname ≠ lc ("TEST_SF") then none
    else
      match callArgs.get? 1 with
      | none => none
      | some a1 =>
        match asName a1 with
        | none => none
        | some c_func =>
          match dictGet db.functions c_func with
          | none => none
          | some fe =>
            match fe.args with
            | none => none
            | some fargs =>
              match callArgs.get? 2, callArgs.get? 3, callArgs.get? 4 with
              | some a2, some a3, some a4 =>
                match tupleElts a2 with
                | none => none
                | some elts =>
                  match (fargs.zip elts.dropLast).mapM processTestArg with
                  | none => none
                  | some args =>
                    let expected :=
                      if isConstIntSrc a3 then intFloatRepr a3
                      else floating_point_value_to_rust a3
                    if rejAlphaStart expected then none
                    else some
                      { func_c := c_func
                        func_rust := fe.rust_func
                        args := args
                        expected := expected
                        tolerance := a4 }
              | _, _, _ => none

/-! ## Source patcher -/

/-- The test-section boundary `"\n#[cfg(test)]"` on which
`inject_tests` splits. -/
def testBoundary : Str := lc ("\n#[cfg(test)]")

/-- `inject_tests(path, tests_content)` on the file contents:
`[code, old_tests] = contents.split("\n#[cfg(test)]")` (fatal unless
the boundary occurs exactly once), then write
`"\n".join([code, tests_content])`. -/
def inject_tests (contents tests_content : Str) : Option Str :=
  match splitTwo contents testBoundary with
  | none => none
  | some (code, _old_tests) => some (code ++ lc ("\n") ++ tests_content)

/-- Modelled from the spec: the rendered test block (the template
`rs_file_templates/special/special_functions_test.rs` is not part of
the source tree) begins with the test-section boundary text
`#[cfg(test)]` followed by the body built from the grouped test
records, which the spec's idempotence statement for test injection
requires. -/
def rendered_test_block (body : Str) : Str := lc ("#[cfg(test)]") ++ body

/-- The marker selection of `inject_docs`: try the variant with the
warning-suppression attribute first, fall back to the plain variant.
A `None` rust name is formatted by Python as the text `None`. -/
def markerFor (contents : Str) (f : FuncEntry) : Str :=
  let rust := match f.rust_func with
    | some r => r
    | none => lc ("None")
  let mAttr := lc ("\n#[allow(non_snake_case)]\npub fn ") ++ rust ++ lc ("(")
  if containsSub contents mAttr then mAttr else lc ("\npub fn ") ++ rust ++ lc ("(")

/-- The markdown-to-rust-doc conversion of `inject_docs`:
`"\n".join("/// " + line for line in fdoc.doc.split("\n"))`. -/
def docCommentLines (doc : Str) : Str :=
  joinSep (lc ("\n")) ((splitOnChar '\n' doc).map (fun l => lc ("/// ") ++ l))

/-- The `link_to_gsl` line of `inject_docs`. -/
def linkToGsl (gsl_func : Str) : Str :=
  lc ("\n///\n/// Binds the [\x60") ++ gsl_func ++
  lc ("\x60](https://www.gnu.org/software/gsl/doc/html/specfunc.html#c.") ++ gsl_func ++
  lc (") function.")

/-- The text `inject_docs` splices in before the marker: the katexit
attribute line, the style line, the converted prose, the manual link. -/
def injBlock (gsl_func : Str) (fdoc : FunctionDoc) : Str :=
  lc ("\n\n#[cfg_attr(doc, katexit::katexit)]\n") ++
  lc ("/// <style>p \x7b overflow-y: hidden; \x7d</style>\n") ++
  docCommentLines fdoc.doc ++ linkToGsl gsl_func

/-- One iteration of the `inject_docs` loop body for the entry
`(gsl_func, function)`: pick the marker, look up the doc record by
canonical name; when the record exists and `"\n" + marker` occurs in
the contents, split there (fatal unless the occurrence is unique) and
re-concatenate with the prose block inserted before the marker;
otherwise leave the contents unchanged. -/
def injectDocsStep (contents : Str) (kv : Str × FuncEntry)
    (docs_map : List (Str × FunctionDoc)) : Option Str :=
  let marker := markerFor contents kv.2
  let pat := lc ("\n") ++ marker
  match dictGet docs_map kv.2.c_func_canonical with
  | none => some contents
  | some fdoc =>
    if containsSub contents pat then
      match splitTwo contents pat with
      | none => none
      | some (before, after) => some (before ++ injBlock kv.1 fdoc ++ marker ++ after)
    else some contents

/-- The docs map `dict((fdoc.name, fdoc) for fdoc in fdocs)`. -/
def docsMapOf (fdocs : List FunctionDoc) : List (Str × FunctionDoc) :=
  fdocs.foldl (fun m fd => dictInsert m fd.name fd) []

/-- The `inject_docs` loop over all database entries, threading the
file contents. -/
def injectDocsLoop (contents : Str) (entries : FuncDict)
    (docs_map : List (Str × FunctionDoc)) : Option Str :=
  match entries with
  | [] => some contents
  | e :: t =>
    match injectDocsStep contents e docs_map with
    | none => none
    | some c' => injectDocsLoop c' t docs_map

/-- `inject_docs(path, db, fdocs)` on the file contents. -/
def inject_docs (contents : Str) (db : SpecialFunctionDatabase)
    (fdocs : List FunctionDoc) : Option Str :=
  injectDocsLoop contents db.functions (docsMapOf fdocs)

/-! ## The driver `main`: file writes -/

/-- `SF_MODULES`. -/
def SF_MODULES : List String :=
  ["airy", "bessel", "clausen", "coupling", "coulomb", "dawson", "debye", "dilog",
   "elementary", "ellint", "elljac", "erf", "exp", "expint", "fermi_dirac", "gamma",
   "gegenbauer", "hermite", "hyperg", "laguerre", "lambert", "legendre", "log",
   "mathieu", "pow_int", "psi", "sincos_pi", "synchrotron", "transport", "trig", "zeta"]

/-- The file paths `main()` writes, in program order: the constructor
and `update_with_modules` only read; `build_sf_templates` rewrites the
per-module templates; then `special.rs`, `machine.rs`; then
`translate_function_head_in_modules`, `inject_docs_in_modules` and
`inject_tests_in_modules` rewrite the per-module sources (test
injection is conditional on the native test file existing, so its
paths are the potential writes); finally `build_randist` writes
`randist.rs`.  No operation of the run writes any other path; in
particular the database is only ever read. -/
def mainWritePaths : List String :=
  (SF_MODULES.map (fun m => "rs_file_templates/special/" ++ m ++ ".rs")) ++
  ["src/special.rs"] ++
  ["src/machine.rs"] ++
  (SF_MODULES.map (fun m => "src/special/" ++ m ++ ".rs")) ++
  (SF_MODULES.map (fun m => "src/special/" ++ m ++ ".rs")) ++
  (SF_MODULES.map (fun m => "src/special/" ++ m ++ ".rs")) ++
  ["src/randist.rs"]

/-! ## Concrete scenarios used by counterexamples and witnesses -/

/-- The end-to-end header declaration of the spec. -/
def hdrC2 : Str := lc ("int gsl_sf_foo_e(double x, int n, gsl_sf_result * result);")

/-- A database with no entries. -/
def dbEmptyC2 : SpecialFunctionDatabase :=
  { path := lc ("gsl_functions.json"), functions := [] }

/-- A file system on which every header read yields the single
declaration `hdrC2`. -/
def fsHdr : FileSys := fun _ => hdrC2

/-- The argument snapshot decomposed from `hdrC2`. -/
def fooArgs : List FunctionHeadArg :=
  [ { name := lc ("x"), type := .str (lc ("f64")) },
    { name := lc ("n"), type := .str (lc ("i32")) },
    { name := lc ("result"), type := .str (lc ("gsl_sf_result*")) } ]

/-- The head decomposed from `hdrC2` against an empty database. -/
def fooHead : SpecialFunctionHead :=
  { c_func := lc ("gsl_sf_foo_e")
    rust_func := none
    args := fooArgs
    has_single_gsl_sf_result := true
    takes_arrays := false
    no_comments_in_args := true }

/-- The entry `update_with_modules` creates for `gsl_sf_foo_e` when no
prior entry exists. -/
def fooNewEntry : FuncEntry :=
  { c_func := lc ("gsl_sf_foo_e"), c_func_canonical := lc ("gsl_sf_foo"),
    rust_func := none, exclude := false, args := some fooArgs }

/-- A curated database entry for `gsl_sf_foo_e` with generated name
`foo` and the argument snapshot of `hdrC2` (the premise of the
spec's test-line example). -/
def fooEntry : FuncEntry :=
  { c_func := lc ("gsl_sf_foo_e"), c_func_canonical := lc ("gsl_sf_foo"),
    rust_func := some (lc ("foo")), exclude := false, args := some fooArgs }

/-- A database holding exactly `fooEntry`. -/
def dbT : SpecialFunctionDatabase :=
  { path := lc ("gsl_functions.json"), functions := [(lc ("gsl_sf_foo_e"), fooEntry)] }

/-- The test-assertion line of the spec's end-to-end example. -/
def lineC4 : Str := lc ("TEST_SF(s, gsl_sf_foo_e, (2.0, 3, &r), 5.0, 1e-10);")

/-- A test-assertion line whose first argument embeds the variable `n`
after a leading digit. -/
def lineC5 : Str := lc ("TEST_SF(s, gsl_sf_foo_e, (2*n, 3, &r), 5.0, 1e-10);")

/-- A test-assertion line whose first argument is the bare variable
`n`. -/
def lineC5bare : Str := lc ("TEST_SF(s, gsl_sf_foo_e, (n, 3, &r), 5.0, 1e-10);")

/-- A one-record documentation map for the canonical name
`gsl_sf_foo`. -/
def fdW7 : FunctionDoc := { name := lc ("gsl_sf_foo"), doc := lc ("Computes foo of x.") }

/-- The documentation list holding exactly `fdW7`. -/
def fdocsW7 : List FunctionDoc := [fdW7]

/-- Module text containing the plain marker for `foo` exactly once,
preceded by a blank line. -/
def ctsW7 : Str := lc ("mod header;\n\npub fn foo(x: f64) -> f64;\nmod tail;")

/-- The output of the first documentation injection on `ctsW7`: the
prose block sits between the former before-part and the marker. -/
def ctsW7after : Str :=
  lc ("mod header;") ++ injBlock (lc ("gsl_sf_foo_e")) fdW7 ++
  lc ("\npub fn foo(") ++ lc ("x: f64) -> f64;\nmod tail;")

/-- Module text containing no marker for `foo` at all. -/
def ctsNoMarker : Str := lc ("mod header;\nfn bar(x: f64) -> f64;\nmod tail;")

/-- A database entry curated as excluded, without argument metadata. -/
def oldEntry : FuncEntry :=
  { c_func := lc ("gsl_sf_old_e"), c_func_canonical := lc ("gsl_sf_old"),
    rust_func := some (lc ("old")), exclude := true, args := none }

/-- A database holding exactly `oldEntry`. -/
def dbW8 : SpecialFunctionDatabase :=
  { path := lc ("gsl_functions.json"), functions := [(lc ("gsl_sf_old_e"), oldEntry)] }

/-- The result of refreshing `dbW8` from `fsHdr`: the curated entry is
untouched and the discovered identifier is appended. -/
def dbW8res : SpecialFunctionDatabase :=
  { path := lc ("gsl_functions.json"),
    functions := [(lc ("gsl_sf_old_e"), oldEntry), (lc ("gsl_sf_foo_e"), fooNewEntry)] }

/-- A curated entry for `gsl_sf_foo_e` itself: excluded, no argument
snapshot yet. -/
def fooCurated : FuncEntry :=
  { c_func := lc ("gsl_sf_foo_e"), c_func_canonical := lc ("gsl_sf_foo"),
    rust_func := some (lc ("foo")), exclude := true, args := none }

/-- A database holding exactly `fooCurated`. -/
def dbW9 : SpecialFunctionDatabase :=
  { path := lc ("gsl_functions.json"), functions := [(lc ("gsl_sf_foo_e"), fooCurated)] }

/-- The result of refreshing `dbW9` from `fsHdr`: only the argument
snapshot changes. -/
def dbW9res : SpecialFunctionDatabase :=
  { path := lc ("gsl_functions.json"),
    functions := [(lc ("gsl_sf_foo_e"), { fooCurated with args := some fooArgs })] }

/-! ## String splicing lemmas -/

/-- `pat` has no self-overlap: no proper nonempty suffix-position copy
of `pat` can agree with its own prefix.  The boundary and marker
patterns used by the patcher have this property (their only newline is
the first character). -/
def noOverlapAt (pat : Str) : Prop :=
  ∀ k, k < pat.length → 0 < k → pat.drop k ≠ pat.take (pat.length - k)

theorem pre_of_pre_append {p a b : Str} (h : p <+: a ++ b) (hl : p.length ≤ a.length) :
    p <+: a := by
  rw [List.prefix_iff_eq_take] at h ⊢
  rw [List.take_append_eq_append_take, Nat.sub_eq_zero_of_le hl] at h
  simpa using h

theorem overlap_of_prefix_mid {pat a x : Str} (h : pat <+: a ++ (pat ++ x))
    (hl : a.length < pat.length) :
    pat.drop a.length = pat.take (pat.length - a.length) := by
  rw [List.prefix_iff_eq_take, List.take_append_eq_append_take,
    List.take_of_length_le (Nat.le_of_lt hl), List.take_append_eq_append_take,
    Nat.sub_eq_zero_of_le (Nat.sub_le _ _), List.take_zero, List.append_nil] at h
  conv_lhs => rw [h]
  exact List.drop_left a _

theorem findSub_of_isPre {s pat : Str} (h : pat.isPrefixOf s = true) :
    findSub s pat = some 0 := by
  rw [findSub.eq_def, h]
  simp

theorem findSub_cons_of_not_pre {c : Char} {t pat : Str}
    (h : pat.isPrefixOf (c :: t) = false) :
    findSub (c :: t) pat = (findSub t pat).map (· + 1) := by
  rw [findSub.eq_def, h]
  simp

theorem findSub_none_cons {c : Char} {t pat : Str} (h : findSub (c :: t) pat = none) :
    pat.isPrefixOf (c :: t) = false ∧ findSub t pat = none := by
  rcases hb : pat.isPrefixOf (c :: t) with _ | _
  · rw [findSub_cons_of_not_pre hb] at h
    exact ⟨rfl, by simpa using h⟩
  · rw [findSub_of_isPre hb] at h
    exact absurd h (by simp)

theorem findSub_mid (pat : Str) (hov : noOverlapAt pat) :
    ∀ (c x : Str), findSub c pat = none → findSub (c ++ pat ++ x) pat = some c.length := by
  intro c
  induction c with
  | nil =>
    intro x _
    have : pat.isPrefixOf (pat ++ x) = true :=
      List.isPrefixOf_iff_prefix.mpr (List.prefix_append pat x)
    simpa using findSub_of_isPre this
  | cons a t ih =>
    intro x h
    obtain ⟨hp, ht⟩ := findSub_none_cons h
    have hkey : pat.isPrefixOf (a :: t ++ pat ++ x) = false := by
      rcases hb : pat.isPrefixOf (a :: t ++ pat ++ x) with _ | _
      · rfl
      · exfalso
        have hpre : pat <+: (a :: t) ++ (pat ++ x) := by
          have := List.isPrefixOf_iff_prefix.mp hb
          simpa [List.append_assoc] using this
        rcases le_or_lt pat.length (a :: t).length with hle | hlt
        · have hpp : pat <+: (a :: t) := pre_of_pre_append hpre hle
          rw [List.isPrefixOf_iff_prefix.mpr hpp] at hp
          exact absurd hp (by simp)
        · exact hov (a :: t).length hlt (by simp) (overlap_of_prefix_mid hpre hlt)
    have hshape : (a :: t) ++ pat ++ x = a :: (t ++ pat ++ x) := by
      simp
    rw [hshape]
    rw [hshape] at hkey
    rw [findSub_cons_of_not_pre hkey, ih x ht]
    simp

theorem splitTwo_mid (pat c x : Str) (hov : noOverlapAt pat)
    (hc : findSub c pat = none) (hx : findSub x pat = none) :
    splitTwo (c ++ pat ++ x) pat = some (c, x) := by
  have hdrop : (c ++ pat ++ x).drop (c.length + pat.length) = x := by
    have hsh : c ++ pat ++ x = (c ++ pat) ++ x := by simp
    rw [hsh, ← List.length_append]
    exact List.drop_left _ _
  have htake : (c ++ pat ++ x).take c.length = c := by
    have hsh : c ++ pat ++ x = c ++ (pat ++ x) := by simp
    rw [hsh]
    exact List.take_left _ _
  unfold splitTwo
  rw [findSub_mid pat hov c x hc]
  simp only [hdrop, htake, hx]

/-! ## Database preservation lemmas -/

theorem dictGet_dictInsert {α : Type} (fns : List (Str × α)) (k k' : Str) (v : α) :
    dictGet (dictInsert fns k v) k' = if k = k' then some v else dictGet fns k' := by
  induction fns with
  | nil => simp [dictGet, dictInsert]
  | cons p t ih =>
    obtain ⟨k0, v0⟩ := p
    by_cases h0 : k0 = k
    · subst h0
      by_cases h1 : k0 = k'
      · subst h1
        simp [dictGet, dictInsert]
      · simp [dictGet, dictInsert, h1]
    · by_cases h1 : k0 = k'
      · subst h1
        have hkk : ¬ k = k0 := fun h => h0 h.symm
        simp [dictGet, dictInsert, h0, hkk]
      · simp [dictGet, dictInsert, h0, h1, ih]

/-- The curated fields of an entry: everything except the argument
snapshot. -/
def curatedOf (e : FuncEntry) : Str × Str × Option Str × Bool :=
  (e.c_func, e.c_func_canonical, e.rust_func, e.exclude)

theorem insertNewFuncs_get_some :
    ∀ (heads : List SpecialFunctionHead) (fns : FuncDict) (k : Str) (e : FuncEntry),
      dictGet fns k = some e → dictGet (insertNewFuncs fns heads) k = some e := by
  intro heads
  induction heads with
  | nil => intro fns k e h; exact h
  | cons h t ih =>
    intro fns k e hget
    rw [insertNewFuncs]
    rcases hmem : (dictGet fns h.c_func).isSome with _ | _
    · have hne : h.c_func ≠ k := by
        intro hkk
        rw [hkk, hget] at hmem
        simp at hmem
      rw [if_neg (by simp)]
      apply ih
      simp [dictGet_dictInsert, hne, hget]
    · rw [if_pos rfl]
      exact ih fns k e hget

theorem setArgsMany_mapCurated :
    ∀ (heads : List SpecialFunctionHead) (fns fns' : FuncDict),
      setArgsMany fns heads = some fns' →
      ∀ k, (dictGet fns' k).map curatedOf = (dictGet fns k).map curatedOf := by
  intro heads
  induction heads with
  | nil =>
    intro fns fns' h k
    rw [setArgsMany] at h
    cases h
    rfl
  | cons h t ih =>
    intro fns fns' hrun k
    rw [setArgsMany] at hrun
    rcases hget : dictGet fns h.c_func with _ | e
    · rw [hget] at hrun
      exact absurd hrun (by simp)
    · rw [hget] at hrun
      dsimp only at hrun
      have step := ih _ _ hrun k
      rw [step, dictGet_dictInsert]
      by_cases hk : h.c_func = k
      · rw [if_pos hk, ← hk, hget]
        rfl
      · rw [if_neg hk]

theorem add_typing_mapCurated :
    ∀ (modules : List Str) (fs : FileSys) (db db' : SpecialFunctionDatabase),
      add_typing_information fs db modules = some db' →
      ∀ k, (dictGet db'.functions k).map curatedOf = (dictGet db.functions k).map curatedOf := by
  intro modules
  induction modules with
  | nil =>
    intro fs db db' h k
    rw [add_typing_information] at h
    cases h
    rfl
  | cons m ms ih =>
    intro fs db db' hrun k
    rw [add_typing_information] at hrun
    rcases hh : function_heads (fs (headerPath m)) db with _ | heads
    · rw [hh] at hrun
      exact absurd hrun (by simp)
    · rw [hh] at hrun
      dsimp only at hrun
      rcases hs : setArgsMany db.functions heads with _ | fns
      · rw [hs] at hrun
        exact absurd hrun (by simp)
      · rw [hs] at hrun
        dsimp only at hrun
        have h1 := ih fs _ db' hrun k
        have h2 := setArgsMany_mapCurated heads _ _ hs k
        rw [h1]
        exact h2

/-! ## Claim theorems -/

set_option maxRecDepth 8192 in
/-- C1, counterexample: the run never persists the Function Database:
the database file path is not among the paths `main()` writes, so no
sync-style serialization of the database happens at run end. -/
theorem C1_counterexample : "gsl_functions.json" ∉ mainWritePaths := by decide

set_option maxRecDepth 8192 in
/-- C1 (amended): the Function Database is mutated only in memory; the
run performs no write to the database file — every path written by
`main()` differs from `gsl_functions.json` — so the persisted database
is left untouched (in particular no key of it is ever deleted). -/
theorem C1_no_database_write : ∀ p ∈ mainWritePaths, p ≠ "gsl_functions.json" := by
  decide

set_option maxRecDepth 8192 in
/-- Witness for C1: `src/machine.rs` is a path main writes, and the
theorem shows it is not the database file. -/
theorem C1_no_database_write_witness :
    "src/machine.rs" ∈ mainWritePaths ∧ "src/machine.rs" ≠ "gsl_functions.json" :=
  ⟨by decide, C1_no_database_write "src/machine.rs" (by decide)⟩

/-- The test-section boundary has no self-overlap: its only newline is
its first character. -/
theorem testBoundary_noOverlap : noOverlapAt testBoundary := by
  unfold noOverlapAt
  decide

/-- C6: test injection is idempotent.  For module text that contains
the test-section boundary exactly once (`code ++ testBoundary ++ old`
with no further occurrence inside `code` or `old`) and a rendered test
block whose body does not itself contain the boundary, injecting once
yields `code ++ testBoundary ++ body`, and injecting again into that
output yields the identical text. -/
theorem C6_inject_tests_idempotent (code old body : Str)
    (hc : findSub code testBoundary = none)
    (ho : findSub old testBoundary = none)
    (hb : findSub body testBoundary = none) :
    inject_tests (code ++ testBoundary ++ old) (rendered_test_block body) =
      some (code ++ testBoundary ++ body) ∧
    inject_tests (code ++ testBoundary ++ body) (rendered_test_block body) =
      some (code ++ testBoundary ++ body) := by
  have hov : noOverlapAt testBoundary := testBoundary_noOverlap
  have hhead : lc ("\n") ++ lc ("#[cfg(test)]") = testBoundary := by decide
  have hkey : ∀ z : Str, lc ("\n") ++ rendered_test_block z = testBoundary ++ z := by
    intro z
    rw [rendered_test_block, ← List.append_assoc, hhead]
  constructor
  · unfold inject_tests
    rw [splitTwo_mid testBoundary code old hov hc ho]
    dsimp only
    rw [List.append_assoc code (lc ("\n")) (rendered_test_block body), hkey body,
      ← List.append_assoc]
  · unfold inject_tests
    rw [splitTwo_mid testBoundary code body hov hc hb]
    dsimp only
    rw [List.append_assoc code (lc ("\n")) (rendered_test_block body), hkey body,
      ← List.append_assoc]

/-- Witness for C6 at concrete module text and test body. -/
theorem C6_inject_tests_idempotent_witness :
    inject_tests (lc ("fn a() -> f64;") ++ testBoundary ++ lc (" old tests"))
        (rendered_test_block (lc ("\nmod tests;"))) =
      some (lc ("fn a() -> f64;") ++ testBoundary ++ lc ("\nmod tests;")) ∧
    inject_tests (lc ("fn a() -> f64;") ++ testBoundary ++ lc ("\nmod tests;"))
        (rendered_test_block (lc ("\nmod tests;"))) =
      some (lc ("fn a() -> f64;") ++ testBoundary ++ lc ("\nmod tests;")) :=
  C6_inject_tests_idempotent (lc ("fn a() -> f64;")) (lc (" old tests"))
    (lc ("\nmod tests;")) (by decide) (by decide) (by decide)

/-- C8: database key monotonicity.  Whenever `update_with_modules`
completes, every identifier that was a key before the call is still a
key afterwards. -/
theorem C8_database_keys_monotone (fs : FileSys) (db : SpecialFunctionDatabase)
    (modules : List Str) (db' : SpecialFunctionDatabase)
    (hrun : update_with_modules fs db modules = some db') (k : Str)
    (hk : (dictGet db.functions k).isSome = true) :
    (dictGet db'.functions k).isSome = true := by
  rw [update_with_modules] at hrun
  rcases hg : gather_function_heads fs modules db with _ | heads
  · rw [hg] at hrun
    exact absurd hrun (by simp)
  · rw [hg] at hrun
    dsimp only at hrun
    obtain ⟨e, he⟩ := Option.isSome_iff_exists.mp hk
    have h1 : dictGet (insertNewFuncs db.functions heads) k = some e :=
      insertNewFuncs_get_some heads _ k e he
    have h2 := add_typing_mapCurated modules fs _ db' hrun k
    dsimp only at h2
    rw [h1] at h2
    rcases hfin : dictGet db'.functions k with _ | e'
    · rw [hfin] at h2
      exact absurd h2 (by simp)
    · simp

/-- Witness for C8: the curated key of `dbW8` survives a refresh that
also discovers and inserts `gsl_sf_foo_e`. -/
theorem C8_database_keys_monotone_witness :
    (dictGet dbW8.functions (lc ("gsl_sf_old_e"))).isSome = true ∧
    (dictGet dbW8res.functions (lc ("gsl_sf_old_e"))).isSome = true :=
  ⟨by decide,
    C8_database_keys_monotone fsHdr dbW8 [lc ("erf")] dbW8res (by decide)
      (lc ("gsl_sf_old_e")) (by decide)⟩

/-- C9: curated-field preservation.  Whenever `update_with_modules`
completes, every pre-existing entry keeps its native identifier,
canonical identifier, generated name and `exclude` flag (only the
argument snapshot may change); in particular `exclude = true` is never
reset. -/
theorem C9_update_preserves_curated (fs : FileSys) (db : SpecialFunctionDatabase)
    (modules : List Str) (db' : SpecialFunctionDatabase)
    (hrun : update_with_modules fs db modules = some db') (k : Str) (e : FuncEntry)
    (he : dictGet db.functions k = some e) :
    (dictGet db'.functions k).map curatedOf = some (curatedOf e) := by
  rw [update_with_modules] at hrun
  rcases hg : gather_function_heads fs modules db with _ | heads
  · rw [hg] at hrun
    exact absurd hrun (by simp)
  · rw [hg] at hrun
    dsimp only at hrun
    have h1 : dictGet (insertNewFuncs db.functions heads) k = some e :=
      insertNewFuncs_get_some heads _ k e he
    have h2 := add_typing_mapCurated modules fs _ db' hrun k
    dsimp only at h2
    rw [h1] at h2
    exact h2

/-- Witness for C9: refreshing a database whose only entry is curated
as excluded keeps the curated fields (the argument snapshot is the
only field the refresh rewrites). -/
theorem C9_update_preserves_curated_witness :
    dictGet dbW9.functions (lc ("gsl_sf_foo_e")) = some fooCurated ∧
    (dictGet dbW9res.functions (lc ("gsl_sf_foo_e"))).map curatedOf =
      some (curatedOf fooCurated) :=
  ⟨by decide,
    C9_update_preserves_curated fsHdr dbW9 [lc ("gamma")] dbW9res (by decide)
      (lc ("gsl_sf_foo_e")) fooCurated (by decide)⟩

/-- C10: the Function Database constructor stores its path argument
but loads the mapping from the fixed file name `gsl_functions.json`:
any two databases constructed over the same storage state hold
identical function mappings, whatever their path arguments. -/
theorem C10_init_loads_fixed_path (p1 p2 : Str) (loadJson : Str → List FuncEntry) :
    (SpecialFunctionDatabase.init p1 loadJson).functions =
      (SpecialFunctionDatabase.init p2 loadJson).functions ∧
    (SpecialFunctionDatabase.init p1 loadJson).path = p1 :=
  ⟨rfl, rfl⟩

/-- C2, counterexample: processing the header declaration `hdrC2` with
no prior database entry creates an entry whose generated name is the
null placeholder (`None`), not `foo`: name resolution consults only
the pre-existing database. -/
theorem C2_counterexample :
    ((update_with_modules fsHdr dbEmptyC2 [lc ("erf")]).bind
        (fun d => dictGet d.functions (lc ("gsl_sf_foo_e")))).map FuncEntry.rust_func =
      some none ∧
    ((update_with_modules fsHdr dbEmptyC2 [lc ("erf")]).bind
        (fun d => dictGet d.functions (lc ("gsl_sf_foo_e")))).map FuncEntry.rust_func ≠
      some (some (lc ("foo"))) := by decide

/-- C2 (amended): the end-to-end run on `hdrC2` with an empty database
creates the entry `fooNewEntry` — generated name `None` (null), the
argument snapshot `[(x, f64), (n, i32), (result, gsl_sf_result*)]`,
`has_single_gsl_sf_result = true`, `takes_arrays = false`,
`exclude = false` — and the declaration is included in the filtered
emission set returned by `function_heads`. -/
theorem C2_end_to_end_fresh_entry :
    update_with_modules fsHdr dbEmptyC2 [lc ("erf")] =
      some { path := lc ("gsl_functions.json"),
             functions := [(lc ("gsl_sf_foo_e"), fooNewEntry)] } ∧
    function_heads hdrC2 dbEmptyC2 = some [fooHead] := by decide

/-- C3, counterexample: with a documentation record present and zero
occurrences of the marker pattern in the module text, the insertion is
silently skipped — the step returns the text unchanged instead of
failing fatally. -/
theorem C3_counterexample :
    (dictGet (docsMapOf fdocsW7) fooEntry.c_func_canonical).isSome = true ∧
    findSub ctsNoMarker (lc ("\n") ++ markerFor ctsNoMarker fooEntry) = none ∧
    injectDocsStep ctsNoMarker (lc ("gsl_sf_foo_e"), fooEntry) (docsMapOf fdocsW7) =
      some ctsNoMarker := by decide

/-- C3 (amended): during documentation injection with a documentation
record present, the newline-extended marker pattern occurring zero
times is silently skipped (no splice, no failure); a unique occurrence
is spliced with the prose block inserted before the marker; two or
more occurrences are fatal for that insertion. -/
theorem C3_injection_marker_cases (contents k : Str) (e : FuncEntry)
    (dm : List (Str × FunctionDoc)) (fd : FunctionDoc)
    (hfd : dictGet dm e.c_func_canonical = some fd) :
    (findSub contents (lc ("\n") ++ markerFor contents e) = none →
      injectDocsStep contents (k, e) dm = some contents) ∧
    (∀ b a, splitTwo contents (lc ("\n") ++ markerFor contents e) = some (b, a) →
      injectDocsStep contents (k, e) dm =
        some (b ++ injBlock k fd ++ markerFor contents e ++ a)) ∧
    (splitTwo contents (lc ("\n") ++ markerFor contents e) = none →
      findSub contents (lc ("\n") ++ markerFor contents e) ≠ none →
      injectDocsStep contents (k, e) dm = none) := by
  unfold injectDocsStep
  dsimp only
  rw [hfd]
  refine ⟨?_, ?_, ?_⟩
  · intro h
    have hcs : containsSub contents (lc ("\n") ++ markerFor contents e) = false := by
      rw [containsSub, h]
      rfl
    simp [hcs]
  · intro b a h
    have hcs : containsSub contents (lc ("\n") ++ markerFor contents e) = true := by
      rw [containsSub]
      rcases hf : findSub contents (lc ("\n") ++ markerFor contents e) with _ | i
      · unfold splitTwo at h
        rw [hf] at h
        exact absurd h (by simp)
      · simp
    simp only [hcs, if_true]
    rw [h]
  · intro hsp hfs
    have hcs : containsSub contents (lc ("\n") ++ markerFor contents e) = true := by
      rw [containsSub]
      rcases hf : findSub contents (lc ("\n") ++ markerFor contents e) with _ | i
      · exact absurd hf hfs
      · simp
    simp only [hcs, if_true]
    rw [hsp]

/-- Witness for C3: the unique-marker case splices the prose block at
the concrete module text. -/
theorem C3_injection_marker_cases_witness :
    injectDocsStep (lc ("mod a;\n\npub fn foo(x: f64);")) (lc ("gsl_sf_foo_e"), fooEntry)
        (docsMapOf fdocsW7) =
      some (lc ("mod a;") ++ injBlock (lc ("gsl_sf_foo_e")) fdW7 ++
        markerFor (lc ("mod a;\n\npub fn foo(x: f64);")) fooEntry ++ lc ("x: f64);")) :=
  (C3_injection_marker_cases (lc ("mod a;\n\npub fn foo(x: f64);")) (lc ("gsl_sf_foo_e"))
      fooEntry (docsMapOf fdocsW7) fdW7 (by decide)).2.1
    (lc ("mod a;")) (lc ("x: f64);")) (by decide)

/-- C4, counterexample: the spec's example assertion line yields the
argument strings `["2.0", "3"]` — the integer literal `3` paired with
the declared integer type `i32` is not rewritten to `3.0`. -/
theorem C4_counterexample :
    (parse_TEST_SF_line lineC4 dbT).map SpecialFuncTest.args =
      some [lc ("2.0"), lc ("3")] ∧
    (parse_TEST_SF_line lineC4 dbT).map SpecialFuncTest.args ≠
      some [lc ("2.0"), lc ("3.0")] := by decide

/-- C4 (amended): parsing the example line against the curated entry
produces target `foo`, arguments `["2.0", "3"]` (integer-to-float
rewriting applies only when the declared type is `f64`), expected
`5.0` and tolerance `1e-10`. -/
theorem C4_parse_line_result :
    parse_TEST_SF_line lineC4 dbT =
      some { func_c := lc ("gsl_sf_foo_e"), func_rust := some (lc ("foo")),
             args := [lc ("2.0"), lc ("3")], expected := lc ("5.0"),
             tolerance := lc ("1e-10") } := by decide

/-- C5, counterexample: an argument text embedding the variable `n`
after a leading digit (`2*n`) is not rejected — the record is produced
with the variable kept verbatim, because the rejection regex is
anchored at the first character. -/
theorem C5_counterexample :
    (parse_TEST_SF_line lineC5 dbT).isSome = true ∧
    (parse_TEST_SF_line lineC5 dbT).map SpecialFuncTest.args =
      some [lc ("2*n"), lc ("3")] := by decide

/-- C5 (amended): the whole record is discarded only when an argument
text begins with a character of the class `[abcdf-zABCD-Z]`: a bare
leading identifier such as `n` discards the record, while `2*n` is
accepted verbatim. -/
theorem C5_rejection_first_char_only :
    parse_TEST_SF_line lineC5bare dbT = none ∧
    parse_TEST_SF_line lineC5 dbT =
      some { func_c := lc ("gsl_sf_foo_e"), func_rust := some (lc ("foo")),
             args := [lc ("2*n"), lc ("3")], expected := lc ("5.0"),
             tolerance := lc ("1e-10") } := by decide

set_option maxRecDepth 8192 in
/-- C7, counterexample: a second documentation injection on module
text already holding the injected block leaves the text unchanged — no
duplicate copy is inserted, because the first injection consumed the
newline preceding the marker and the injected link line does not end
with a newline, so the search pattern no longer occurs. -/
theorem C7_counterexample :
    inject_docs ctsW7 dbT fdocsW7 = some ctsW7after ∧
    inject_docs ctsW7after dbT fdocsW7 = some ctsW7after ∧
    ctsW7after ≠ ctsW7 := by decide

set_option maxRecDepth 8192 in
/-- C7 (amended): running documentation injection twice on this module
text equals running it once (the second run detects no insertion
point and is a no-op), and the prose block occurs exactly once in the
result. -/
theorem C7_second_run_skips :
    ((inject_docs ctsW7 dbT fdocsW7).bind (fun c => inject_docs c dbT fdocsW7)) =
      inject_docs ctsW7 dbT fdocsW7 ∧
    (splitTwo ctsW7after (lc ("/// Computes foo of x."))).isSome = true := by decide
